import Mathlib

/-!
Verification of the no-fed bridge (Go) against its natural-language
specification.  The definitions below are a shallow embedding of the
program's data model and operations: pure Go functions become Lean
functions, the Postgres tables become explicit state values threaded
through the operations, and the nondeterminism of the aggregator's
select loop becomes an explicit schedule argument.  Machine integers
are modelled as `Nat`/`Int` with explicit reduction modulo `2^32`
where the source overflows (the SHA-256 core).
-/

set_option maxRecDepth 100000

namespace NoFed

/-! ## SHA-256 and HMAC (Go `crypto/sha256`, `crypto/hmac`)

The identity bridge calls `hmac.New(sha256.New, key).Sum([]byte(actor))`.
To settle what that computes we embed real SHA-256 over byte lists
(bytes are `Nat < 256`, words are `Nat < 2^32` maintained by explicit
`% 2^32`). -/

/-- Reduce a natural number to a 32-bit word. -/
def w32 (x : Nat) : Nat := x % 4294967296

/-- Right-rotate a 32-bit word by `n`. -/
def rotr (n x : Nat) : Nat := w32 ((x >>> n) ||| (x <<< (32 - n)))

/-- SHA-256 choice function. -/
def ch (x y z : Nat) : Nat := Nat.xor (Nat.land x y) (Nat.land (Nat.xor x 4294967295) z)

/-- SHA-256 majority function. -/
def maj (x y z : Nat) : Nat := Nat.xor (Nat.xor (Nat.land x y) (Nat.land x z)) (Nat.land y z)

/-- SHA-256 big sigma 0. -/
def bs0 (x : Nat) : Nat := Nat.xor (Nat.xor (rotr 2 x) (rotr 13 x)) (rotr 22 x)

/-- SHA-256 big sigma 1. -/
def bs1 (x : Nat) : Nat := Nat.xor (Nat.xor (rotr 6 x) (rotr 11 x)) (rotr 25 x)

/-- SHA-256 small sigma 0. -/
def ss0 (x : Nat) : Nat := Nat.xor (Nat.xor (rotr 7 x) (rotr 18 x)) (x >>> 3)

/-- SHA-256 small sigma 1. -/
def ss1 (x : Nat) : Nat := Nat.xor (Nat.xor (rotr 17 x) (rotr 19 x)) (x >>> 10)

/-- SHA-256 round constants (FIPS 180-4, written in decimal). -/
def shaK : List Nat :=
  [1116352408, 1899447441, 3049323471, 3921009573, 961987163, 1508970993,
   2453635748, 2870763221, 3624381080, 310598401, 607225278, 1426881987,
   1925078388, 2162078206, 2614888103, 3248222580, 3835390401, 4022224774,
   264347078, 604807628, 770255983, 1249150122, 1555081692, 1996064986,
   2554220882, 2821834349, 2952996808, 3210313671, 3336571891, 3584528711,
   113926993, 338241895, 666307205, 773529912, 1294757372, 1396182291,
   1695183700, 1986661051, 2177026350, 2456956037, 2730485921, 2820302411,
   3259730800, 3345764771, 3516065817, 3600352804, 4094571909, 275423344,
   430227734, 506948616, 659060556, 883997877, 958139571, 1322822218,
   1537002063, 1747873779, 1955562222, 2024104815, 2227730452, 2361852424,
   2428436474, 2756734187, 3204031479, 3329325298]

/-- SHA-256 initial hash value (FIPS 180-4, written in decimal). -/
def shaH0 : List Nat :=
  [1779033703, 3144134277, 1013904242, 2773480762,
   1359893119, 2600822924, 528734635, 1541459225]

/-- Read the `i`-th word of the message schedule (0 outside the array). -/
def wordOf (w : Array Nat) (i : Nat) : Nat := w.getD i 0

/-- Extend a 16-word message schedule by `n` further words. -/
def extendW : Nat → Array Nat → Array Nat
  | 0, w => w
  | n + 1, w =>
    let i := w.size
    extendW n (w.push (w32 (ss1 (wordOf w (i - 2)) + wordOf w (i - 7) +
      ss0 (wordOf w (i - 15)) + wordOf w (i - 16))))

/-- Working state of the SHA-256 compression loop. -/
structure Hs where
  a : Nat
  b : Nat
  c : Nat
  d : Nat
  e : Nat
  f : Nat
  g : Nat
  hh : Nat

/-- One SHA-256 round. -/
def shaStep (st : Hs) (kw : Nat × Nat) : Hs :=
  let t1 := w32 (st.hh + bs1 st.e + ch st.e st.f st.g + kw.1 + kw.2)
  let t2 := w32 (bs0 st.a + maj st.a st.b st.c)
  { a := w32 (t1 + t2), b := st.a, c := st.b, d := st.c,
    e := w32 (st.d + t1), f := st.e, g := st.f, hh := st.g }

/-- Group a byte list into big-endian 32-bit words. -/
def toWords : List Nat → List Nat
  | a :: b :: c :: d :: rest => (((a * 256 + b) * 256 + c) * 256 + d) :: toWords rest
  | _ => []

/-- View an 8-element word list as a compression state. -/
def hsOfList : List Nat → Hs
  | [a, b, c, d, e, f, g, hh] => ⟨a, b, c, d, e, f, g, hh⟩
  | _ => ⟨0, 0, 0, 0, 0, 0, 0, 0⟩

/-- SHA-256 compression of one 64-byte block into the running hash value. -/
def compress (hv : List Nat) (block : List Nat) : List Nat :=
  let ws := (extendW 48 (toWords block).toArray).toList
  let st := (shaK.zip ws).foldl shaStep (hsOfList hv)
  List.zipWith (fun x y => w32 (x + y)) hv [st.a, st.b, st.c, st.d, st.e, st.f, st.g, st.hh]

/-- Big-endian 8-byte encoding of a length in bits. -/
def be64 (n : Nat) : List Nat :=
  [(n >>> 56) % 256, (n >>> 48) % 256, (n >>> 40) % 256, (n >>> 32) % 256,
   (n >>> 24) % 256, (n >>> 16) % 256, (n >>> 8) % 256, n % 256]

/-- Big-endian 4-byte encoding of a 32-bit word. -/
def be32 (x : Nat) : List Nat :=
  [(x >>> 24) % 256, (x >>> 16) % 256, (x >>> 8) % 256, x % 256]

/-- SHA-256 padding: append `0x80`, zeros, and the 64-bit bit length. -/
def padMsg (m : List Nat) : List Nat :=
  m ++ 128 :: (List.replicate ((64 - (m.length + 9) % 64) % 64) 0 ++ be64 (8 * m.length))

/-- Split a padded message into 64-byte blocks (fuel-driven for kernel reduction). -/
def toBlocksF : Nat → List Nat → List (List Nat)
  | _, [] => []
  | 0, _ => []
  | n + 1, l => l.take 64 :: toBlocksF n (l.drop 64)

/-- Split a padded message into 64-byte blocks. -/
def toBlocks (l : List Nat) : List (List Nat) := toBlocksF l.length l

/-- SHA-256 of a byte list, as 32 digest bytes. -/
def sha256 (m : List Nat) : List Nat :=
  (((toBlocks (padMsg m)).foldl compress shaH0).map be32).foldr (· ++ ·) []

/-- HMAC-SHA256 (RFC 2104) of a message under a key, as 32 digest bytes. -/
def hmacSha256 (key msg : List Nat) : List Nat :=
  let k0 := if 64 < key.length then sha256 key else key
  let kp := k0 ++ List.replicate (64 - k0.length) 0
  sha256 ((kp.map fun b => Nat.xor b 92) ++ sha256 ((kp.map fun b => Nat.xor b 54) ++ msg))

/-- Bytes of an ASCII string (Go `[]byte(s)` for the ASCII inputs used here). -/
def strBytes (s : String) : List Nat := s.data.map Char.toNat

/-- Lowercase hex digit. -/
def hexDigit (n : Nat) : Char := if n < 10 then Char.ofNat (48 + n) else Char.ofNat (87 + n)

/-- Go `hex.EncodeToString`: lowercase hex of a byte list. -/
def hexEncode (bs : List Nat) : String :=
  String.mk ((bs.map fun b => [hexDigit (b / 16), hexDigit (b % 16)]).foldr (· ++ ·) [])

/-- Validation of the SHA-256 embedding: FIPS 180 test vector for the empty message. -/
theorem sha256_empty_vector :
    hexEncode (sha256 []) = "e3b0c44298fc1c149afbf4c8996fb92427ae41e4649b934ca495991b7852b855" := by
  decide

/-- Validation of the SHA-256 embedding: FIPS 180 test vector for "abc". -/
theorem sha256_abc_vector :
    hexEncode (sha256 (strBytes "abc")) =
      "ba7816bf8f01cfea414140de5dae2223b00361a396177a9cb410ff61f20015ad" := by
  decide

/-- Validation of the HMAC embedding: RFC 4231 test case 2. -/
theorem hmac_rfc4231_case2 :
    hexEncode (hmacSha256 (strBytes "Jefe") (strBytes "what do ya want for nothing?")) =
      "5bdcc146bf60754e6a042426089575c75a003f089d2739839dec58b964ec3843" := by
  decide

/-! ## Data model

`nostr.Event` and `nostr.Filter` from go-nostr, restricted to the fields the
bridge reads.  `CreatedAt` is modelled as seconds since the Unix epoch. -/

/-- A nostr event (go-nostr `nostr.Event`). -/
structure NEvent where
  id : String := ""
  pubkey : String := ""
  created_at : Nat := 0
  kind : Int := 0
  tags : List (List String) := []
  content : String := ""
  deriving DecidableEq

/-- The zero value of `nostr.Event`, as received from a closed Go channel. -/
def zeroEvent : NEvent := {}

/-- A nostr query filter (go-nostr `nostr.Filter`), fields used by the bridge. -/
structure Filter where
  ids : List String := []
  authors : List String := []
  kinds : List Int := []
  since : Option Nat := none
  deriving DecidableEq

/-- Go `nostr.Tags.GetAll([]string{"p"})`: tags whose first entry is "p". -/
def tagsGetAllP (tags : List (List String)) : List (List String) :=
  tags.filter fun t => t.headD "" = "p"

/-- Go `nostr.Tag.Value()`: the second entry of a tag. -/
def tagValue (t : List String) : String := (t.drop 1).headD ""

/-! ## Identity bridge (src/nostr.go `GetNostrKeysByActor`, src/postgresql.go `SaveNostrKeypair`)

The source computes `hmac.New(sha256.New, n.settings.PrivateKey.D.Bytes()).Sum([]byte(actor))`.
Go's `hash.Hash.Sum(b)` contract is: append the digest of the data written so
far to `b` and return the extended slice.  Nothing is ever written to this
HMAC, so the call evaluates to `actor-bytes ++ HMAC(key, empty-message)`.
The secp256k1 public-key derivation (`nostr.GetPublicKey`) is third-party
library code and is abstracted as a function argument `gp`; the model only
relies on it being a function of the private key hex. -/

/-- Go `hash.Hash.Sum` semantics for an HMAC-SHA256 hash with `written` the
bytes written so far: `Sum(input)` returns `input ++ MAC(written)`. -/
def hmacSum (key written input : List Nat) : List Nat := input ++ hmacSha256 key written

/-- The private-key hex computed at src/nostr.go:87-88. -/
def gnkPrivkey (keyD : List Nat) (actor : String) : String :=
  hexEncode (hmacSum keyD [] (strBytes actor))

/-- A row of the `keys` table (`pub_actor_url`, `nostr_privkey`, `nostr_pubkey`;
primary key `nostr_pubkey`). -/
structure KeysRow where
  pub_actor_url : String := ""
  nostr_privkey : String := ""
  nostr_pubkey : String := ""
  deriving DecidableEq

/-- `Database.SaveNostrKeypair` (src/postgresql.go:176-184): INSERT with
ON CONFLICT DO NOTHING; the only unique constraint is the `nostr_pubkey`
primary key. -/
def SaveNostrKeypair (db : List KeysRow) (pubkey privkey actorUrl : String) : List KeysRow :=
  if db.any fun r => r.nostr_pubkey = pubkey then db
  else db ++ [⟨actorUrl, privkey, pubkey⟩]

/-- `NostrService.GetNostrKeysByActor` (src/nostr.go:86-99).  Returns the
`(privkey, pubkey)` pair together with the updated `keys` table; the
persistence itself cannot fail in the model. -/
def GetNostrKeysByActor (gp : String → Option String) (keyD : List Nat)
    (db : List KeysRow) (actor : String) :
    Except String ((String × String) × List KeysRow) :=
  let privkey := gnkPrivkey keyD actor
  match gp privkey with
  | none => .error "invalid private key"
  | some pubkey => .ok ((privkey, pubkey), SaveNostrKeypair db pubkey privkey actor)

/-- The keys returned by a `GetNostrKeysByActor` call (its observable output). -/
def gnkKeys (gp : String → Option String) (keyD : List Nat) (actor : String)
    (db : List KeysRow) : Except String (String × String) :=
  (GetNostrKeysByActor gp keyD db actor).map Prod.fst

/-- The `keys` table after a `GetNostrKeysByActor` call. -/
def gnkDb (gp : String → Option String) (keyD : List Nat) (actor : String)
    (db : List KeysRow) : List KeysRow :=
  match GetNostrKeysByActor gp keyD db actor with
  | .ok (_, db') => db'
  | .error _ => db

/-- Modelled from the spec: "compute a keyed digest (HMAC) over `actorURL`
using the server's private key material as the HMAC key, use the resulting
bytes as the event-network private key" — the private key the spec describes. -/
def specPrivkey (keyD : List Nat) (actor : String) : String :=
  hexEncode (hmacSha256 keyD (strBytes actor))

/-- Concrete server key material used in the C4 counterexample. -/
def keyD4 : List Nat := strBytes "server-rsa-private-d"

/-- Concrete actor URL used in the C4 counterexample. -/
def actor4 : String := "https://fed.example/users/alice"

/-- C4: the private key returned by `GetNostrKeysByActor` is NOT the hex of
HMAC-SHA256(serverKey, actorURL).  Because `hash.Hash.Sum` appends the digest
of the (empty) written stream to its argument, the code derives
`hex(actorBytes ++ HMAC(key, ""))` instead: the actor URL appears verbatim as
a prefix of the private key, and the claimed HMAC value differs from it. -/
theorem getNostrKeysByActor_privkey_not_hmac_of_actor :
    gnkPrivkey keyD4 actor4 = hexEncode (strBytes actor4 ++ hmacSha256 keyD4 []) ∧
      gnkPrivkey keyD4 actor4 ≠ specPrivkey keyD4 actor4 := by
  exact ⟨rfl, by decide⟩

/-- C5: key derivation is deterministic and unaffected by the idempotent
persistence: a second `GetNostrKeysByActor` call on the state left by the
first call returns exactly the keys of the first call, for every public-key
derivation function, server secret, actor and initial `keys` table. -/
theorem getNostrKeysByActor_deterministic (gp : String → Option String)
    (keyD : List Nat) (actor : String) (db : List KeysRow) :
    gnkKeys gp keyD actor (gnkDb gp keyD actor db) = gnkKeys gp keyD actor db := by
  unfold gnkKeys gnkDb GetNostrKeysByActor
  cases h : gp (gnkPrivkey keyD actor) <;> simp [h, Except.map]

/-! ## Cache (src/cache.go)

The `cache` table is a list of rows.  `value` is the JSON blob of an event
(`none` models an empty-string or undecodable value), `time` the timestamp
column.  Expiration is not tracked: the claims under study never read it. -/

/-- A row of the `cache` table. -/
structure CacheRow where
  key : String
  value : Option NEvent
  time : Nat
  deriving DecidableEq

/-- `PostgresCache.GetEventByKey` (src/cache.go:81-98).  A missing row raises
`sql.ErrNoRows`, which the source deliberately lets through, leaving
`value == ""` and returning a nil event together with a nil error; a stored
blob unmarshals back to its event.  A genuine database failure is the only
error source and is not modelled. -/
def GetEventByKey (st : List CacheRow) (key : String) : Except String (Option NEvent) :=
  match st.find? fun r => r.key = key with
  | none => .ok none
  | some r => .ok r.value

/-- Keys selected by `PostgresCache.CacheEvent`'s kind switch (src/cache.go:106-126). -/
def cacheKeys (e : NEvent) : Except String (List String) :=
  if e.kind = 0 then .ok ["0:" ++ e.pubkey]
  else if e.kind = 1 then .ok ["1:" ++ e.id, "1:" ++ e.pubkey ++ ":" ++ e.id]
  else if e.kind = 3 then .ok ["3:" ++ e.pubkey]
  else .error ("unknown event kind: " ++ toString e.kind)

/-- One `INSERT ... ON CONFLICT (key) DO UPDATE SET expiration = ...`
(src/cache.go:129-133): on conflict only the expiration is refreshed, which the
model does not track, so an existing row is kept as is. -/
def upsert (st : List CacheRow) (key : String) (e : NEvent) : List CacheRow :=
  if st.any fun r => r.key = key then st else st ++ [⟨key, some e, e.created_at⟩]

/-- `PostgresCache.CacheEvent` (src/cache.go:100-139): reject unknown kinds
before any write, then upsert every selected key. -/
def CacheEvent (st : List CacheRow) (e : NEvent) : Except String Unit × List CacheRow :=
  match cacheKeys e with
  | .error m => (.error m, st)
  | .ok keys => (.ok (), keys.foldl (fun s k => upsert s k e) st)

/-- SQL LIKE matching over character lists, fuel-driven so that the kernel can
evaluate it: `%` matches any run of characters, `_` any single character. -/
def likeMatchF : Nat → List Char → List Char → Bool
  | 0, _, _ => false
  | _ + 1, [], [] => true
  | _ + 1, [], _ :: _ => false
  | n + 1, p :: ps, s =>
    if p = '%' then
      likeMatchF n ps s ||
        (match s with
         | [] => false
         | _ :: t => likeMatchF n (p :: ps) t)
    else
      match s with
      | [] => false
      | c :: t => (p = '_' || p = c) && likeMatchF n ps t

/-- SQL LIKE matching; the fuel bound dominates every recursion path. -/
def likeMatch (p s : List Char) : Bool := likeMatchF (p.length + s.length + 1) p s

/-- Insertion into a list ordered by descending `time` (ORDER BY time DESC). -/
def insertDesc (r : CacheRow) : List CacheRow → List CacheRow
  | [] => [r]
  | x :: xs => if x.time ≤ r.time then r :: x :: xs else x :: insertDesc r xs

/-- Sort rows by descending `time`. -/
def sortDesc (l : List CacheRow) : List CacheRow := l.foldr insertDesc []

/-- `PostgresCache.GetNotesByPubKey` (src/cache.go:51-71).  The SQL is
`WHERE key LIKE '1:' || $1 || '%' ORDER BY time DESC LIMIT 100` with the
parameter `$1` already set to `"1:<pubkey>:%"` by the `Sprintf`, so the
effective pattern is `"1:1:<pubkey>:%%"`.  Rows whose value does not decode
fail the whole call. -/
def cacheGetNotesByPubKey (st : List CacheRow) (pubkey : String) :
    Except String (List NEvent) :=
  let pattern := "1:" ++ ("1:" ++ pubkey ++ ":%") ++ "%"
  let rows := (sortDesc (st.filter fun r => likeMatch pattern.data r.key.data)).take 100
  if rows.any fun r => r.value = none then .error "unmarshal failure"
  else .ok (rows.filterMap fun r => r.value)

/-! ## Event service (src/nostr.go)

`QuerySync`'s network nondeterminism is abstracted at this layer as a function
`query : Filter → Nat → List NEvent` giving the events the aggregator returns
for a filter and cap; the aggregator itself is modelled separately below.
Fire-and-forget cache writes spawned in goroutines after the response value is
fixed are not modelled: they cannot affect any returned value. -/

/-- `NostrService.GetEventByID` (src/nostr.go:101-123).  Returns the result and
the list of aggregator queries the call issued. -/
def GetEventByID (st : List CacheRow) (query : Filter → Nat → List NEvent)
    (id : String) : Except String (Option NEvent) × List (Filter × Nat) :=
  match GetEventByKey st ("1:" ++ id) with
  | .ok ev => (.ok ev, [])
  | .error _ =>
    let f : Filter := { ids := [id] }
    match query f 1 with
    | [] => (.error "event not found", [(f, 1)])
    | e :: _ => (.ok (some e), [(f, 1)])

/-- Seconds from the Unix epoch to `time.Date(1971, 1, 1, 0, 0, 0, 0, time.UTC)`,
the floor used at src/nostr.go:131. -/
def epoch1971 : Nat := 31536000

/-- `NostrService.GetNotesByPubKey` (src/nostr.go:125-155).  Returns the filter
passed to the aggregator together with the response list. -/
def GetNotesByPubKey (st : List CacheRow) (query : Filter → Nat → List NEvent)
    (pubkey : String) : Except String (Filter × List NEvent) :=
  match cacheGetNotesByPubKey st pubkey with
  | .error e => .error e
  | .ok cached =>
    let since := match cached with
      | [] => epoch1971
      | c :: _ => c.created_at
    let f : Filter := { authors := [pubkey], kinds := [1], since := some since }
    .ok (f, cached ++ query f 50)

/-- Outcome of a Go call that can also crash the goroutine. -/
inductive GoRes (α : Type) where
  | ok (val : α)
  | err (msg : String)
  | panicked
  deriving DecidableEq

/-- `NostrService.GetFollowingByPubKey` (src/nostr.go:173-202).  When neither
the cache nor the aggregator produces a contact-list event, the source reaches
`event.Tags.GetAll` with `event == nil`, a nil-pointer dereference. -/
def GetFollowingByPubKey (st : List CacheRow) (query : Filter → Nat → List NEvent)
    (pubkey : String) : GoRes (List String) × List CacheRow :=
  match GetEventByKey st ("3:" ++ pubkey) with
  | .error e => (.err e, st)
  | .ok cachedEv =>
    let found : Option NEvent × List CacheRow :=
      match cachedEv with
      | some ev => (some ev, st)
      | none =>
        match query { authors := [pubkey], kinds := [3] } 1 with
        | [] => (none, st)
        | e :: _ => (some e, (CacheEvent st e).2)
    match found.1 with
    | none => (.panicked, found.2)
    | some ev => (.ok ((tagsGetAllP ev.tags).map tagValue), found.2)

/-- C10: `CacheEvent` rejects every kind outside {0, 1, 3} with an error and no
write, stores metadata and contact-list events under exactly one singleton key
per subject, and stores a note under exactly the keys `1:<id>` and
`1:<pubkey>:<id>`. -/
theorem cacheEvent_key_discipline (st : List CacheRow) (e : NEvent) :
    (¬(e.kind = 0 ∨ e.kind = 1 ∨ e.kind = 3) →
      CacheEvent st e = (.error ("unknown event kind: " ++ toString e.kind), st)) ∧
    (e.kind = 0 → cacheKeys e = .ok ["0:" ++ e.pubkey]) ∧
    (e.kind = 1 → cacheKeys e = .ok ["1:" ++ e.id, "1:" ++ e.pubkey ++ ":" ++ e.id]) ∧
    (e.kind = 3 → cacheKeys e = .ok ["3:" ++ e.pubkey]) := by
  refine ⟨fun h => ?_, fun h => ?_, fun h => ?_, fun h => ?_⟩
  · push_neg at h
    obtain ⟨h0, h1, h3⟩ := h
    simp [CacheEvent, cacheKeys, h0, h1, h3]
  · simp [cacheKeys, h]
  · simp [cacheKeys, h]
  · simp [cacheKeys, h]

/-- Concrete kind-1 event used in witnesses and in the C6 counterexample. -/
def noteEvent : NEvent := { id := "e1", pubkey := "abc", created_at := 1700000000, kind := 1 }

/-- Witness for C10 at the concrete note event. -/
theorem cacheEvent_key_discipline_witness :
    cacheKeys noteEvent = .ok ["1:e1", "1:abc:e1"] :=
  (cacheEvent_key_discipline [] noteEvent).2.2.1 rfl

/-- C1: on a cache miss `GetEventByID` does NOT query the aggregator and does
NOT return a not-found error: `GetEventByKey` reports a missing row as a nil
event with a nil error, `GetEventByID` only checks the error, and so it
returns a nil event with a nil error itself, having issued no query at all —
for every aggregator behaviour. -/
theorem getEventByID_cache_miss_returns_nil_nil (query : Filter → Nat → List NEvent) :
    GetEventByID [] query "abc" = (.ok none, []) := rfl

/-- C9: with no cached contact list and an aggregator that returns nothing,
`GetFollowingByPubKey` dereferences the missing event and panics instead of
returning an empty-or-error result, for every pubkey. -/
theorem getFollowingByPubKey_nil_dereference (pubkey : String) :
    GetFollowingByPubKey [] (fun _ _ => []) pubkey = (.panicked, []) := rfl

/-- Modelled from the spec: "read cached notes for the identity" — the notes
the cache holds for a pubkey under the subject-scoped namespace
`1:<pubkey>:...`, newest first. -/
def specCachedNotes (st : List CacheRow) (pubkey : String) : List NEvent :=
  (sortDesc (st.filter fun r => ("1:" ++ pubkey ++ ":").data.isPrefixOf r.key.data)).filterMap
    fun r => r.value

/-- The cache state after storing `noteEvent`: rows `1:e1` and `1:abc:e1`. -/
def st6 : List CacheRow := (CacheEvent [] noteEvent).2

/-- C6: the cache holds a note for pubkey `abc` with timestamp 1700000000, yet
`GetNotesByPubKey` queries the network with the 1971 epoch floor as `since`
and returns a list not containing the cached note: the doubly prefixed LIKE
pattern `1:1:abc:%%` matches neither of the keys the cache itself writes, so
the cached-notes read is always empty. -/
theorem getNotesByPubKey_ignores_cached_notes :
    specCachedNotes st6 "abc" = [noteEvent] ∧
    cacheGetNotesByPubKey st6 "abc" = .ok [] ∧
    GetNotesByPubKey st6 (fun _ _ => []) "abc" =
      .ok ({ authors := ["abc"], kinds := [1], since := some epoch1971 }, []) ∧
    epoch1971 ≠ noteEvent.created_at := by
  exact ⟨rfl, rfl, rfl, by decide⟩

/-! ## Relay aggregator (src/nostr.go `QuerySync`)

The connection phase (src/nostr.go:238-270) runs in the same goroutine and
buffers whatever the connected relays returned into the `events` channel; the
consumer loop (src/nostr.go:273-289) then drains it.  The consumer loop is
modelled as a small-step function over an explicit schedule: one `Pick` per
select resolution.  The buffered channel contents are the `pending` list. -/

/-- A scheduling decision of the consumer select (src/nostr.go:276-286):
`done` means the overall deadline has fired and the `ctx.Done()` branch runs;
`recv` means the `events` channel branch runs. -/
inductive Pick where
  | done
  | recv
  deriving DecidableEq

/-- One run of the consumer loop of `QuerySync`, with the deferred
`close(events)` of src/nostr.go:233 applied on normal return.

`unique` is the seen-id set, `acc` the accumulated result (newest first),
`pending` the events still buffered in the channel, `closed` whether `events`
has been closed.  In the `done` branch the source closes the channel and
`break`s — but `break` leaves only the select, so the loop re-enters, and a
second `done` closes a closed channel: a Go panic, modelled as
`Except.error ()`.  A `recv` on a closed empty channel yields the zero event;
a `recv` on an open empty channel blocks until the deadline fires, which is
exactly the `done` transition.  On loop exit the deferred `close(events)`
panics whenever the channel was already closed.  `none` means the schedule
ended before the call completed. -/
def drainLoop (max : Nat) : List Pick → List String → List NEvent → List NEvent → Bool →
    Option (Except Unit (List NEvent))
  | [], _unique, acc, _pending, closed =>
    if max ≤ acc.length then
      some (if closed then .error () else .ok acc.reverse)
    else none
  | .done :: ps, unique, acc, pending, closed =>
    if max ≤ acc.length then
      some (if closed then .error () else .ok acc.reverse)
    else if closed then some (.error ())
    else drainLoop max ps unique acc pending true
  | .recv :: ps, unique, acc, pending, closed =>
    if max ≤ acc.length then
      some (if closed then .error () else .ok acc.reverse)
    else
      match pending with
      | e :: rest =>
        if e.id ∈ unique then drainLoop max ps unique acc rest closed
        else drainLoop max ps (e.id :: unique) (e :: acc) rest closed
      | [] =>
        if closed then
          if "" ∈ unique then drainLoop max ps unique acc [] closed
          else drainLoop max ps ("" :: unique) (zeroEvent :: acc) [] closed
        else drainLoop max ps unique acc [] true

/-- The consumer phase of `QuerySync` over the events the connection phase
buffered, from the initial state: channel open, nothing seen. -/
def querySyncDrain (max : Nat) (pending : List NEvent) (picks : List Pick) :
    Option (Except Unit (List NEvent)) :=
  drainLoop max picks [] [] pending false

/-- `QuerySync` with an empty peer set (equally: every connection failed): the
connection loop guard `len(connected)+len(failed) < len(n.peers)` blocks the
loop body, so nothing is ever sent on the channel. -/
def querySyncNoPeers (max : Nat) (picks : List Pick) : Option (Except Unit (List NEvent)) :=
  querySyncDrain max [] picks

/-- Helper: with an empty channel, a consumer-loop run from a state where the
cap is not yet reached or the channel is already closed can only complete in
the double-close panic. -/
theorem drainLoop_empty_channel_panics (max : Nat) :
    ∀ (picks : List Pick) (unique : List String) (acc : List NEvent) (closed : Bool)
      (r : Except Unit (List NEvent)),
      (acc.length < max ∨ closed = true) →
      drainLoop max picks unique acc [] closed = some r → r = .error () := by
  intro picks
  induction picks with
  | nil =>
    intro unique acc closed r hstate hr
    simp only [drainLoop] at hr
    split at hr
    · rename_i hge
      have hc : closed = true := by
        rcases hstate with hlt | hc
        · omega
        · exact hc
      subst hc
      simpa using hr.symm
    · exact absurd hr (by simp)
  | cons p ps ih =>
    intro unique acc closed r hstate hr
    cases p with
    | done =>
      simp only [drainLoop] at hr
      split at hr
      · rename_i hge
        have hc : closed = true := by
          rcases hstate with hlt | hc
          · omega
          · exact hc
        subst hc
        simpa using hr.symm
      · cases closed with
        | true => simpa using hr.symm
        | false =>
          rw [if_neg (by simp)] at hr
          exact ih _ _ _ _ (Or.inr rfl) hr
    | recv =>
      simp only [drainLoop] at hr
      split at hr
      · rename_i hge
        have hc : closed = true := by
          rcases hstate with hlt | hc
          · omega
          · exact hc
        subst hc
        simpa using hr.symm
      · cases closed with
        | false =>
          rw [if_neg (by simp)] at hr
          exact ih _ _ _ _ (Or.inr rfl) hr
        | true =>
          rw [if_pos rfl] at hr
          by_cases hu : ("" : String) ∈ unique
          · rw [if_pos hu] at hr
            exact ih _ _ _ _ (Or.inr rfl) hr
          · rw [if_neg hu] at hr
            exact ih _ _ _ _ (Or.inr rfl) hr

/-- C2: when no events arrive on the channel (empty peer set or total peer
failure), every completed `QuerySync` run with a positive cap panics — the
deadline fires, the `done` branch closes the channel, `break` leaves only the
select, and either a second `done` closes a closed channel or the deferred
`close(events)` does — so the call never returns the empty list the spec
promises. -/
theorem querySync_no_peers_never_returns (max : Nat) (picks : List Pick)
    (r : Except Unit (List NEvent)) (hmax : 1 ≤ max)
    (hr : querySyncNoPeers max picks = some r) : r = .error () :=
  drainLoop_empty_channel_panics max picks [] [] false r (Or.inl (by simpa using hmax)) hr

/-- Witness for C2: the concrete schedule (deadline fires, then one receive of
the zero value from the closed channel) completes and indeed panics. -/
theorem querySync_no_peers_never_returns_witness :
    (Except.error () : Except Unit (List NEvent)) = .error () :=
  querySync_no_peers_never_returns 1 [.done, .recv] (.error ()) (by decide) rfl

/-- Helper for C3: the consumer loop keeps the seen-id set equal to the id set
of the accumulator, the accumulator ids distinct, and the accumulator within
the cap; hence every normally returned list is deduplicated and capped. -/
theorem drainLoop_ok_dedup_cap (max : Nat) :
    ∀ (picks : List Pick) (unique : List String) (acc pending : List NEvent)
      (closed : Bool) (l : List NEvent),
      acc.length ≤ max →
      (acc.map NEvent.id).Nodup →
      (∀ s, s ∈ unique ↔ s ∈ acc.map NEvent.id) →
      drainLoop max picks unique acc pending closed = some (.ok l) →
      l.length ≤ max ∧ (l.map NEvent.id).Nodup := by
  intro picks
  induction picks with
  | nil =>
    intro unique acc pending closed l hlen hnd huniq hr
    simp only [drainLoop] at hr
    split at hr
    · cases closed with
      | true => simp at hr
      | false =>
        simp only [Bool.false_eq_true, if_false, Option.some_inj] at hr
        have hl : acc.reverse = l := by
          cases hr
          rfl
        subst hl
        refine ⟨by simpa using hlen, ?_⟩
        rw [List.map_reverse]
        simpa using hnd
    · exact absurd hr (by simp)
  | cons p ps ih =>
    intro unique acc pending closed l hlen hnd huniq hr
    cases p with
    | done =>
      simp only [drainLoop] at hr
      split at hr
      · cases closed with
        | true => simp at hr
        | false =>
          simp only [Bool.false_eq_true, if_false, Option.some_inj] at hr
          have hl : acc.reverse = l := by
            cases hr
            rfl
          subst hl
          refine ⟨by simpa using hlen, ?_⟩
          rw [List.map_reverse]
          simpa using hnd
      · cases closed with
        | true => simp at hr
        | false =>
          rw [if_neg (by simp)] at hr
          exact ih _ _ _ _ _ hlen hnd huniq hr
    | recv =>
      simp only [drainLoop] at hr
      split at hr
      · cases closed with
        | true => simp at hr
        | false =>
          simp only [Bool.false_eq_true, if_false, Option.some_inj] at hr
          have hl : acc.reverse = l := by
            cases hr
            rfl
          subst hl
          refine ⟨by simpa using hlen, ?_⟩
          rw [List.map_reverse]
          simpa using hnd
      · rename_i hlt
        split at hr
        · rename_i e rest
          by_cases hmem : e.id ∈ unique
          · rw [if_pos hmem] at hr
            exact ih _ _ _ _ _ hlen hnd huniq hr
          · rw [if_neg hmem] at hr
            refine ih _ _ _ _ _ ?_ ?_ ?_ hr
            · simp only [List.length_cons]
              omega
            · refine List.nodup_cons.mpr ⟨?_, hnd⟩
              intro hids
              exact hmem ((huniq e.id).mpr hids)
            · intro s
              simp only [List.mem_cons, List.map_cons, huniq s]
        · cases closed with
          | false =>
            rw [if_neg (by simp)] at hr
            exact ih _ _ _ _ _ hlen hnd huniq hr
          | true =>
            rw [if_pos rfl] at hr
            by_cases hu : ("" : String) ∈ unique
            · rw [if_pos hu] at hr
              exact ih _ _ _ _ _ hlen hnd huniq hr
            · rw [if_neg hu] at hr
              refine ih _ _ _ _ _ ?_ ?_ ?_ hr
              · simp only [List.length_cons]
                omega
              · refine List.nodup_cons.mpr ⟨?_, hnd⟩
                intro hids
                exact hu ((huniq "").mpr (by simpa [zeroEvent] using hids))
              · intro s
                simp only [List.mem_cons, List.map_cons, huniq s, zeroEvent]

/-- C3: every list a `QuerySync` run returns contains no two events with the
same id and has length at most the cap, whatever the peers delivered on the
channel and however the select branches were scheduled. -/
theorem querySync_result_dedup_le_max (max : Nat) (pending : List NEvent)
    (picks : List Pick) (l : List NEvent)
    (hr : querySyncDrain max pending picks = some (.ok l)) :
    l.length ≤ max ∧ (l.map NEvent.id).Nodup :=
  drainLoop_ok_dedup_cap max picks [] [] pending false l (by simp) (by simp) (by simp) hr

/-- A second concrete kind-1 event for the C3 witness. -/
def noteEvent2 : NEvent := { id := "e2", pubkey := "abc", created_at := 1700000001, kind := 1 }

/-- Witness for C3: two peers deliver `noteEvent` twice and `noteEvent2` once;
the run returns the two distinct events within the cap. -/
theorem querySync_result_dedup_le_max_witness :
    ([noteEvent, noteEvent2].length ≤ 2) ∧
      (([noteEvent, noteEvent2].map NEvent.id).Nodup) :=
  querySync_result_dedup_le_max 2 [noteEvent, noteEvent, noteEvent2]
    [.recv, .recv, .recv] [noteEvent, noteEvent2] rfl

/-! ## Inbox state machine (src/handlers.go `InboxHandler`)

The handler unmarshals the same raw body into several litepub shapes.  A body
is abstracted by the outcome of each of those decodes (`none` = that
`json.Unmarshal` failed).  The durable state gathers the `keys`, `followers`
and `notes` tables plus the cache rows touched by `DeleteNoteByUrl`.  The
translator call of the Create/Note branch lives in src/ap.go and is taken as a
function argument `nte` together with its persistence effects. -/

/-- litepub `Base`: the minimal envelope, discriminator first. -/
structure APBase where
  type : String := ""
  id : String := ""
  deriving DecidableEq

/-- litepub `Create[T]`: an activity carrying an actor and a typed object. -/
structure CreateOf (α : Type) where
  actor : String := ""
  object : α
  deriving DecidableEq

/-- litepub `Follow`: the following actor and the followed object URL. -/
structure FollowShape where
  actor : String := ""
  object : String := ""
  deriving DecidableEq

/-- litepub `Note`, opaque here: only the Create/Note branch consumes it, via
the abstracted translator. -/
structure NoteShape where
  id : String := ""
  attributedTo : String := ""
  content : String := ""
  deriving DecidableEq

/-- Decode results of one inbox request body for each target shape. -/
structure InboxBody where
  base : Option APBase := none
  createBase : Option (CreateOf APBase) := none
  createNote : Option (CreateOf NoteShape) := none
  followShape : Option FollowShape := none
  createDelete : Option (CreateOf String) := none
  createFollow : Option (CreateOf FollowShape) := none
  deriving DecidableEq

/-- Durable state: `keys`, `followers` (pubkey, actor URL), `notes`
(event id, note URL) and the event cache. -/
structure DbState where
  keys : List KeysRow := []
  followers : List (String × String) := []
  notes : List (String × String) := []
  cache : List CacheRow := []
  deriving DecidableEq

/-- `Database.GetPubKeyByActorUrl` (src/postgresql.go:80-85); a missing row is
`sql.ErrNoRows`. -/
def GetPubKeyByActorUrl (db : DbState) (actorUrl : String) : Except String String :=
  match db.keys.find? fun r => r.pub_actor_url = actorUrl with
  | some r => .ok r.nostr_pubkey
  | none => .error "sql: no rows in result set"

/-- `Database.FollowNostrPubKey` (src/postgresql.go:87-96): insert-or-ignore on
the (pubkey, actor URL) unique constraint. -/
def FollowNostrPubKey (db : DbState) (pubActorUrl nostrPubkey : String) : DbState :=
  if (nostrPubkey, pubActorUrl) ∈ db.followers then db
  else { db with followers := db.followers ++ [(nostrPubkey, pubActorUrl)] }

/-- `Database.UnfollowNostrPubKey` (src/postgresql.go:98-102). -/
def UnfollowNostrPubKey (db : DbState) (pubActorUrl nostrPubkey : String) : DbState :=
  { db with followers := db.followers.filter fun p => p ≠ (nostrPubkey, pubActorUrl) }

/-- `Database.DeleteNoteByUrl` (src/postgresql.go:145-158): resolve the event
id (error on a missing row), delete the note row and the cached event. -/
def DeleteNoteByUrl (db : DbState) (noteUrl : String) : Except String DbState :=
  match db.notes.find? fun p => p.2 = noteUrl with
  | none => .error "sql: no rows in result set"
  | some p =>
    .ok { db with
      notes := db.notes.filter fun q => q.2 ≠ noteUrl,
      cache := db.cache.filter fun r => r.key ≠ "1:" ++ p.1 }

/-- Go `strings.Split(s, "/")` over the characters of `s`: cut at every
slash, keeping empty segments. -/
def splitSlash : List Char → List (List Char)
  | [] => [[]]
  | c :: cs =>
    if c = '/' then [] :: splitSlash cs
    else
      match splitSlash cs with
      | [] => [[c]]
      | p :: ps => (c :: p) :: ps

/-- Go `strings.Split(s, "/")` followed by taking the last element
(src/handlers.go:94-95 and 141-142). -/
def lastSegment (s : String) : String := String.mk ((splitSlash s.data).getLastD [])

/-- `GetNostrKeysByActor` acting on the durable state (the handler calls the
service, whose persistence lands in the `keys` table). -/
def gnkOnDb (gp : String → Option String) (keyD : List Nat) (db : DbState)
    (actor : String) : Except String DbState :=
  match GetNostrKeysByActor gp keyD db.keys actor with
  | .error e => .error e
  | .ok (_, keys') => .ok { db with keys := keys' }

/-- The key-provisioning prelude of the Create branch (src/handlers.go:56-67):
derive keys only when a `keys` row exists with an empty pubkey; a lookup
failure (including `sql.ErrNoRows`) is logged and ignored. `none` stands for
the 400 response on a derivation failure. -/
def inboxEnsureKeys (gp : String → Option String) (keyD : List Nat)
    (db : DbState) (actor : String) : Option DbState :=
  match GetPubKeyByActorUrl db actor with
  | .ok key =>
    if key = "" then
      match gnkOnDb gp keyD db actor with
      | .error _ => none
      | .ok db' => some db'
    else some db
  | .error _ => some db

/-- `Handler.InboxHandler` (src/handlers.go:37-159) on one decoded request:
returns the HTTP status and the new durable state. -/
def InboxHandler (gp : String → Option String) (keyD : List Nat)
    (nte : DbState → CreateOf NoteShape → Except String Unit × DbState)
    (b : InboxBody) (db : DbState) : Nat × DbState :=
  match b.base with
  | none => (400, db)
  | some base =>
    if base.type = "Create" ∨ base.type = "Follow" then
      match b.createBase with
      | none => (400, db)
      | some create =>
        match inboxEnsureKeys gp keyD db create.actor with
        | none => (400, db)
        | some db1 =>
          if create.object.type = "Note" then
            match b.createNote with
            | none => (400, db1)
            | some note =>
              match nte db1 note with
              | (.error _, db2) => (400, db2)
              | (.ok _, db2) => (200, db2)
          else if create.object.type = "Person" then
            match b.followShape with
            | none => (400, db1)
            | some follow =>
              (200, FollowNostrPubKey db1 follow.actor (lastSegment follow.object))
          else (200, db1)
    else if base.type = "Delete" then
      match b.createDelete with
      | none => (400, db)
      | some del =>
        match DeleteNoteByUrl db del.object with
        | .error _ => (500, db)
        | .ok db' => (200, db')
    else if base.type = "Undo" then
      match b.createBase with
      | none => (400, db)
      | some undo =>
        if undo.object.type = "Person" then
          match b.createFollow with
          | none => (400, db)
          | some follow =>
            (200, UnfollowNostrPubKey db follow.object.actor (lastSegment follow.object.object))
        else (200, db)
    else (200, db)

/-- The Create activity of the C7 scenario. -/
def followBody : InboxBody :=
  { base := some { type := "Create" },
    createBase := some { actor := "https://fed.example/users/alice",
                         object := { type := "Person" } },
    followShape := some { actor := "https://fed.example/users/alice",
                          object := "https://example/pub/user/abc123" } }

/-- The matching Undo activity of the C7 scenario. -/
def undoBody : InboxBody :=
  { base := some { type := "Undo" },
    createBase := some { actor := "https://fed.example/users/alice",
                         object := { type := "Person" } },
    createFollow := some { actor := "https://fed.example/users/alice",
                           object := { actor := "https://fed.example/users/alice",
                                       object := "https://example/pub/user/abc123" } } }

/-- C7: the Create activity with a Person object at path
`https://example/pub/user/abc123` from actor `https://fed.example/users/alice`
inserts exactly the FollowEdge `(abc123, https://fed.example/users/alice)`,
keyed by the last path segment; the Undo carrying the same Follow object
deletes exactly that edge — for every key-derivation function and translator. -/
theorem inbox_follow_then_undo (gp : String → Option String) (keyD : List Nat)
    (nte : DbState → CreateOf NoteShape → Except String Unit × DbState) :
    InboxHandler gp keyD nte followBody {} =
      (200, { followers := [("abc123", "https://fed.example/users/alice")] }) ∧
    InboxHandler gp keyD nte undoBody
        { followers := [("abc123", "https://fed.example/users/alice")] } =
      (200, ({} : DbState)) := by
  constructor <;> rfl

/-- The decode-failure cases of C8: the envelope decode fails, or the decode
of the concrete shape selected by the discriminator(s) fails. -/
def decodeFails (b : InboxBody) : Prop :=
  b.base = none ∨
  ∃ base, b.base = some base ∧
    (((base.type = "Create" ∨ base.type = "Follow") ∧
       (b.createBase = none ∨
        ∃ create, b.createBase = some create ∧
          ((create.object.type = "Note" ∧ b.createNote = none) ∨
           (create.object.type = "Person" ∧ b.followShape = none)))) ∨
     (base.type = "Delete" ∧ b.createDelete = none) ∨
     (base.type = "Undo" ∧
       (b.createBase = none ∨
        ∃ undo, b.createBase = some undo ∧ undo.object.type = "Person" ∧
          b.createFollow = none)))

/-- No `keys` row carries an empty pubkey — an invariant of reachable states,
since every stored pubkey is a nonempty derived key. -/
def keysNonempty (db : DbState) : Prop :=
  ∀ r ∈ db.keys, r.nostr_pubkey ≠ ""

/-- Under the reachable-state invariant the key-provisioning prelude neither
fails nor changes the state. -/
theorem inboxEnsureKeys_eq_some (gp : String → Option String) (keyD : List Nat)
    (db : DbState) (actor : String) (hdb : keysNonempty db) :
    inboxEnsureKeys gp keyD db actor = some db := by
  unfold inboxEnsureKeys GetPubKeyByActorUrl
  cases hfind : db.keys.find? (fun r => r.pub_actor_url = actor) with
  | none => rfl
  | some r =>
    have hne : r.nostr_pubkey ≠ "" := hdb r (List.mem_of_find?_eq_some hfind)
    simp [hne]

/-- C8: a request whose payload fails to decode — at the envelope or at the
shape the discriminators select — yields a client error (400) and leaves the
durable state untouched, for every key-derivation function, translator, and
reachable initial state. -/
theorem inbox_decode_failure_no_persistence
    (gp : String → Option String) (keyD : List Nat)
    (nte : DbState → CreateOf NoteShape → Except String Unit × DbState)
    (b : InboxBody) (db : DbState)
    (hdb : keysNonempty db) (hfail : decodeFails b) :
    InboxHandler gp keyD nte b db = (400, db) := by
  have hkeys := inboxEnsureKeys_eq_some gp keyD db
  rcases hfail with hb | ⟨base, hb, hcase⟩
  · simp [InboxHandler, hb]
  · rcases hcase with ⟨htype, hcreate⟩ | ⟨htype, hdel⟩ | ⟨htype, hundo⟩
    · rcases hcreate with hcb | ⟨create, hcb, hobj⟩
      · rcases htype with h | h <;> simp [InboxHandler, hb, h, hcb]
      · rcases hobj with ⟨hN, hcn⟩ | ⟨hP, hfs⟩
        · rcases htype with h | h <;>
            simp [InboxHandler, hb, h, hcb, hkeys create.actor hdb, hN, hcn]
        · rcases htype with h | h <;>
            simp [InboxHandler, hb, h, hcb, hkeys create.actor hdb, hP, hfs]
    · simp [InboxHandler, hb, htype, hdel]
    · rcases hundo with hcb | ⟨undo, hcb, hP, hcf⟩
      · simp [InboxHandler, hb, htype, hcb]
      · simp [InboxHandler, hb, htype, hcb, hP, hcf]

/-- Witness for C8: the empty body fails the envelope decode on the empty
state, which satisfies the reachable-state invariant. -/
theorem inbox_decode_failure_no_persistence_witness :
    InboxHandler (fun _ => none) [] (fun db _ => (.ok (), db)) {} {} =
      (400, ({} : DbState)) :=
  inbox_decode_failure_no_persistence (fun _ => none) [] (fun db _ => (.ok (), db))
    {} {} (by simp [keysNonempty]) (Or.inl rfl)

end NoFed
